import Mathlib

/-!
Shallow embedding of the `Url` record, accessors and setters of `src/lib.rs`
(rust-url). The serialization is modelled as a list of characters, each
standing for one byte; every serialization occurring in the claims is ASCII,
so byte offsets coincide with character offsets. Rust panics (out-of-bounds
indexing and slicing, `Vec::drain` with an invalid range, `unwrap()` on an
error) are modelled by `Option`: `none` is a panic. `debug_assert!` is
compiled out of release builds and is not modelled; `assert!` is modelled as
a panic when its condition fails.

Code of the repository that is not under `src/` (the `parser`, `host` and
`percent_encoding` modules) is modelled from the spec where needed; each such
definition carries a doc comment starting with `Modelled from the spec:`.
-/

deriving instance DecidableEq for Except

namespace RustUrl

/-- Rust `s.as_bytes()[i]` (`Url::byte_at`, lib.rs 922-925): `none` is the
out-of-bounds panic. -/
def byteAt (s : List Char) (i : Nat) : Option Char :=
  s.get? i

/-- Rust slicing `s[i..]`: panics when `i > s.len()` (lib.rs 1017-1022). -/
def sliceFrom (s : List Char) (i : Nat) : Option (List Char) :=
  if i ≤ s.length then some (s.drop i) else Option.none

/-- Rust slicing `s[..j]`: panics when `j > s.len()` (lib.rs 1024-1029). -/
def sliceTo (s : List Char) (j : Nat) : Option (List Char) :=
  if j ≤ s.length then some (s.take j) else Option.none

/-- Rust slicing `s[i..j]`: panics when `i > j` or `j > s.len()`
(lib.rs 1010-1015). -/
def sliceRange (s : List Char) (i j : Nat) : Option (List Char) :=
  if i ≤ j ∧ j ≤ s.length then some ((s.take j).drop i) else Option.none

/-- Rust `Vec::drain(i..j)` on the serialization buffer: removes the bytes
`i..j`; panics when `i > j` or `j > s.len()`. -/
def drain (s : List Char) (i j : Nat) : Option (List Char) :=
  if i ≤ j ∧ j ≤ s.length then some (s.take i ++ s.drop j) else Option.none

/-- Rust `String::truncate(i)`: keeps the first `i` bytes, a no-op when
`i ≥ s.len()`. -/
def truncate (s : List Char) (i : Nat) : List Char :=
  s.take i

/-- Parse errors of the missing `parser` module that the embedding needs. -/
inductive ParseError where
  | Overflow
deriving DecidableEq

/-- Modelled from the spec: `to_u32` lives in the missing `parser` module;
per §7, integer conversions from byte offsets to the canonical u32 width
saturate to a single `Overflow` error. -/
def to_u32 (n : Nat) : Except ParseError Nat :=
  if n ≤ 4294967295 then .ok n else .error .Overflow

/-- Rust `to_u32(n).unwrap()`: `unwrap` of the `Overflow` error is a panic. -/
def u32unwrap (n : Nat) : Option Nat :=
  match to_u32 n with
  | .ok v => some v
  | .error _ => Option.none

/-- Modelled from the spec: the SIMPLE encode set of the missing
`percent_encoding` module (§4.1: controls + space + `"`, `#`, `<`, `>`, `?`;
the DEL byte 0x7f counts as a control). -/
def simpleEncodeSet (c : Char) : Bool :=
  c.toNat < 32 || c.toNat = 127 || [' ', '"', '#', '<', '>', '?'].contains c

/-- Modelled from the spec: the DEFAULT encode set (§4.1: SIMPLE plus
backtick 0x60, `0x7b`, `0x7c`, `0x7d`). -/
def defaultEncodeSet (c : Char) : Bool :=
  simpleEncodeSet c || c.toNat = 96 || c.toNat = 123 || c.toNat = 124 || c.toNat = 125

/-- Modelled from the spec: the USERINFO encode set (§4.1: DEFAULT plus
`/ : ; = @ [ \ ] ^` and the vertical bar 0x7c). -/
def userinfoEncodeSet (c : Char) : Bool :=
  defaultEncodeSet c || ['/', ':', ';', '=', '@', '[', '\\', ']', '^'].contains c
    || c.toNat = 124

/-- Modelled from the spec: the FRAGMENT encode set keyed to the fragment
component (§2 item 1, §4.3 Fragment). -/
def fragmentEncodeSet (c : Char) : Bool :=
  simpleEncodeSet c

/-- Uppercase hex digit, for `%XX` escapes (§4.1: uppercase hex). -/
def hexUpper (n : Nat) : Char :=
  if n < 10 then Char.ofNat (48 + n) else Char.ofNat (55 + n)

/-- Modelled from the spec: the `%XX` escape of one byte (§4.1). -/
def percentEncodeChar (c : Char) : List Char :=
  ['%', hexUpper (c.toNat / 16 % 16), hexUpper (c.toNat % 16)]

/-- Modelled from the spec: `utf8_percent_encode` of the missing
`percent_encoding` module (§4.1: every byte in the set and every non-ASCII
byte becomes `%XX`). -/
def utf8_percent_encode (set : Char → Bool) : List Char → List Char
  | [] => []
  | c :: rest =>
    (if set c || c.toNat ≥ 128 then percentEncodeChar c else [c])
      ++ utf8_percent_encode set rest

/-- Value of an ASCII hex digit. -/
def hexVal (c : Char) : Option Nat :=
  if 48 ≤ c.toNat ∧ c.toNat ≤ 57 then some (c.toNat - 48)
  else if 65 ≤ c.toNat ∧ c.toNat ≤ 70 then some (c.toNat - 55)
  else if 97 ≤ c.toNat ∧ c.toNat ≤ 102 then some (c.toNat - 87)
  else Option.none

/-- Modelled from the spec: `percent_decode` of the missing
`percent_encoding` module (§4.1: reverses `%XX` byte-wise; §4.3: a percent
sign not followed by two hex digits is tolerated and passed through). -/
def percent_decode : List Char → List Char
  | [] => []
  | '%' :: a :: b :: rest =>
    match hexVal a, hexVal b with
    | some x, some y => Char.ofNat (16 * x + y) :: percent_decode rest
    | _, _ => '%' :: percent_decode (a :: b :: rest)
  | c :: rest => c :: percent_decode rest

/-- Rust `str::split(sep)` on the path: splits on a separator character,
always yielding at least one (possibly empty) piece. -/
def splitOnChar (sep : Char) : List Char → List (List Char)
  | [] => [[]]
  | c :: rest =>
    if c = sep then [] :: splitOnChar sep rest
    else
      match splitOnChar sep rest with
      | [] => [[c]]
      | s :: ss => (c :: s) :: ss

/-- Rust `str::rfind(c)`: byte index of the last occurrence. -/
def rfindAux (c : Char) : List Char → Nat → Option Nat
  | [], _ => Option.none
  | x :: xs, i =>
    match rfindAux c xs (i + 1) with
    | some j => some j
    | Option.none => if x = c then some i else Option.none

/-- Rust `str::rfind(c)` from index 0. -/
def rfind (c : Char) (s : List Char) : Option Nat :=
  rfindAux c s 0

/-- The `Host<String>` enum of the missing `host` module, as consumed by
lib.rs: a domain string, an IPv4 address (u32) or an IPv6 address (u128). -/
inductive HostView where
  | domain (name : List Char)
  | ipv4 (address : Nat)
  | ipv6 (address : Nat)
deriving DecidableEq, Repr

/-- The `HostInternal` discriminant stored in the `Url` record
(lib.rs 294-299 shows its four variants). -/
inductive HostInternal where
  | none
  | domain
  | ipv4 (address : Nat)
  | ipv6 (address : Nat)
deriving DecidableEq, Repr

/-- Rust `host.into()`: forgets the domain string, keeps the addresses. -/
def hostInto : HostView → HostInternal
  | .domain _ => .domain
  | .ipv4 a => .ipv4 a
  | .ipv6 a => .ipv6 a

/-- Modelled from the spec: dotted-decimal form of an IPv4 address for the
`Display` impl of the missing `host` module (§4.5: canonical forms). -/
def ipv4String (a : Nat) : List Char :=
  Nat.toDigits 10 (a / 16777216 % 256) ++ '.' :: Nat.toDigits 10 (a / 65536 % 256)
    ++ '.' :: Nat.toDigits 10 (a / 256 % 256) ++ '.' :: Nat.toDigits 10 (a % 256)

/-- The eight 16-bit groups of an IPv6 address, most significant first. -/
def ipv6Groups (a : Nat) : List Nat :=
  [a / 2 ^ 112 % 65536, a / 2 ^ 96 % 65536, a / 2 ^ 80 % 65536, a / 2 ^ 64 % 65536,
   a / 2 ^ 48 % 65536, a / 2 ^ 32 % 65536, a / 2 ^ 16 % 65536, a % 65536]

/-- Length of the run of zeros at the head of the list. -/
def zeroRunLen : List Nat → Nat
  | [] => 0
  | g :: rest => if g = 0 then zeroRunLen rest + 1 else 0

/-- First longest zero run: start index and length. -/
def bestZeroRunAux : List Nat → Nat → Nat × Nat
  | [], _ => (0, 0)
  | g :: rest, i =>
    let here := zeroRunLen (g :: rest)
    let (bs, bl) := bestZeroRunAux rest (i + 1)
    if here ≥ bl then (i, here) else (bs, bl)

/-- Modelled from the spec: canonical textual form of an IPv6 address for
the `Display` impl of the missing `host` module (§4.5: canonical forms; the
first longest run of two or more zero groups is compressed to `::`,
lowercase hex). -/
def ipv6String (a : Nat) : List Char :=
  let gs := ipv6Groups a
  let (s, l) := bestZeroRunAux gs 0
  if l ≥ 2 then
    (List.intercalate [':'] ((gs.take s).map (Nat.toDigits 16)))
      ++ ':' :: ':' :: (List.intercalate [':'] ((gs.drop (s + l)).map (Nat.toDigits 16)))
  else List.intercalate [':'] (gs.map (Nat.toDigits 16))

/-- Modelled from the spec: `write!("{}", host)` for `Host<String>` (missing
`host` module; §6: IPv6 addresses are given between brackets, domains are
ASCII strings). -/
def hostToString : HostView → List Char
  | .domain name => name
  | .ipv4 a => ipv4String a
  | .ipv6 a => '[' :: ipv6String a ++ [']']

/-- Modelled from the spec: `parser::default_port` (missing `parser` module;
§4.1: ftp=21, gopher=70, http=80, https=443, ws=80, wss=443; `file` has
none). -/
def default_port (scheme : List Char) : Option Nat :=
  if scheme = "ftp".toList then some 21
  else if scheme = "gopher".toList then some 70
  else if scheme = "http".toList then some 80
  else if scheme = "https".toList then some 443
  else if scheme = "ws".toList then some 80
  else if scheme = "wss".toList then some 443
  else Option.none

/-- The URL record of lib.rs 162-184: the canonical serialization plus the
component offsets, the host discriminant and the port. -/
structure Url where
  serialization : List Char
  scheme_end : Nat
  username_end : Nat
  host_start : Nat
  host_end : Nat
  host : HostInternal
  port : Option Nat
  path_start : Nat
  query_start : Option Nat
  fragment_start : Option Nat
deriving DecidableEq, Repr

/-- Result of a Rust setter `Result<(), ()>` together with the record it
leaves behind: `ok` for `Ok(())`, `err` for `Err(())`. -/
inductive SetResult where
  | ok (u : Url)
  | err (u : Url)
deriving DecidableEq, Repr

namespace Url

/-- `Url::scheme` (lib.rs 228-230): `self.slice(..self.scheme_end)`. -/
def scheme (u : Url) : Option (List Char) :=
  sliceTo u.serialization u.scheme_end

/-- `Url::has_host` (lib.rs 234-237):
`self.slice(self.scheme_end + 1 ..).starts_with("//")`. -/
def has_host (u : Url) : Option Bool :=
  (sliceFrom u.serialization (u.scheme_end + 1)).map
    (fun rest => ['/', '/'].isPrefixOf rest)

/-- `Url::non_relative` (lib.rs 241-243):
`self.byte_at(self.path_start) != b'/'`. -/
def non_relative (u : Url) : Option Bool :=
  (byteAt u.serialization u.path_start).map (fun c => c != '/')

/-- `Url::username` (lib.rs 247-253). -/
def username (u : Url) : Option (List Char) :=
  (has_host u).bind (fun hh =>
    if hh then sliceRange u.serialization (u.scheme_end + 3) u.username_end
    else some [])

/-- `Url::password` (lib.rs 256-267). In release builds the u32 subtraction
`host_start - 1` wraps when `host_start = 0` and the following slice is out
of range, hence a panic. -/
def password (u : Url) : Option (Option (List Char)) :=
  (byteAt u.serialization u.username_end).bind (fun c =>
    if c = ':' then
      if u.host_start = 0 then Option.none
      else (sliceRange u.serialization (u.username_end + 1) (u.host_start - 1)).map some
    else some Option.none)

/-- `Url::host_str` (lib.rs 278-284). -/
def host_str (u : Url) : Option (Option (List Char)) :=
  (has_host u).bind (fun hh =>
    if hh then (sliceRange u.serialization u.host_start u.host_end).map some
    else some Option.none)

/-- `Url::host` (lib.rs 293-300); primed because the record field is already
named `host`. -/
def host' (u : Url) : Option (Option HostView) :=
  match u.host with
  | .none => some Option.none
  | .domain =>
    (sliceRange u.serialization u.host_start u.host_end).map (fun d => some (.domain d))
  | .ipv4 a => some (some (.ipv4 a))
  | .ipv6 a => some (some (.ipv6 a))

/-- `Url::path` (lib.rs 374-382). -/
def path (u : Url) : Option (List Char) :=
  match u.query_start, u.fragment_start with
  | Option.none, Option.none => sliceFrom u.serialization u.path_start
  | some i, _ => sliceRange u.serialization u.path_start i
  | Option.none, some i => sliceRange u.serialization u.path_start i

/-- `Url::path_segments` (lib.rs 388-395): `None` unless the path starts
with a slash (`path.starts_with` is a check of the first byte), otherwise
the slash-split pieces of `path[1..]`. -/
def path_segments (u : Url) : Option (Option (List (List Char))) :=
  (path u).map (fun p =>
    if p.head? = some '/' then some (splitOnChar '/' (p.drop 1)) else Option.none)

/-- `Url::query` (lib.rs 398-410). -/
def query (u : Url) : Option (Option (List Char)) :=
  match u.query_start, u.fragment_start with
  | Option.none, _ => some Option.none
  | some qs, Option.none => (sliceFrom u.serialization (qs + 1)).map some
  | some qs, some fs => (sliceRange u.serialization (qs + 1) fs).map some

/-- `Url::fragment` (lib.rs 416-421). -/
def fragment (u : Url) : Option (Option (List Char)) :=
  match u.fragment_start with
  | Option.none => some Option.none
  | some start => (sliceFrom u.serialization (start + 1)).map some

end Url

/-- Scheme characters after the first (§4.3: alpha, digit, plus, hyphen,
dot). -/
def schemeChar (c : Char) : Bool :=
  c.isAlpha || c.isDigit || c == '+' || c == '-' || c == '.'

/-- Loop of `parse_scheme`: lowercases scheme characters, a colon terminates
and yields the remaining input; end of input is accepted in setter
context. -/
def parseSchemeLoop (acc : List Char) : List Char → Except Unit (List Char × List Char)
  | [] => .ok (acc.reverse, [])
  | c :: rest =>
    if c = ':' then .ok (acc.reverse, rest)
    else if schemeChar c then parseSchemeLoop (c.toLower :: acc) rest
    else .error ()

/-- Modelled from the spec: `Parser::parse_scheme` of the missing `parser`
module, in setter context (§4.3 Scheme: leading ASCII alpha, then
alpha/digit/plus/hyphen/dot, lowercased on the fly, a colon terminates;
`set_scheme_internal` then requires the input remaining after the colon to
be empty, so end of input without a colon is accepted here). Returns the
lowercased scheme written to the parser serialization, and the remaining
input. -/
def parse_scheme (input : List Char) : Except Unit (List Char × List Char) :=
  match input with
  | [] => .error ()
  | c :: rest => if c.isAlpha then parseSchemeLoop [c.toLower] rest else .error ()

/-- Modelled from the spec: `Parser::parse_fragment` of the missing `parser`
module (§4.3: tabs and newlines are stripped as syntax violations, the rest
is percent-encoded with the FRAGMENT set). -/
def parse_fragment (input : List Char) : List Char :=
  utf8_percent_encode fragmentEncodeSet
    (input.filter (fun c => !(c == '\t' || c == '\n' || c == '\r')))

namespace Url

/-- `Url::set_fragment` (lib.rs 431-445): truncate at any previous
`fragment_start`, then optionally record the new `fragment_start`, push the
hash byte and the parsed fragment. -/
def set_fragment (u : Url) (fragment : Option (List Char)) : Option Url :=
  let s := match u.fragment_start with
           | some start => truncate u.serialization start
           | Option.none => u.serialization
  match fragment with
  | some input =>
    (u32unwrap s.length).map (fun fs =>
      { u with
               serialization := (s ++ ['#']) ++ parse_fragment input
               fragment_start := some fs })
  | Option.none => some { u with serialization := s, fragment_start := Option.none }

/-- Write branch of `Url::set_port_internal` (lib.rs 594-608): truncate at
`host_end`, write `":{port}"`, splice the path and everything after it back,
shifting the trailing offsets. Note that the `port` field itself is not
assigned anywhere in `set_port_internal`. -/
def setPortWrite (u : Url) (new_ : Nat) : Option Url := do
  let path_and_after ← sliceFrom u.serialization u.path_start
  let s := truncate u.serialization u.host_end ++ ':' :: Nat.toDigits 10 new_
  let new_path_start ← u32unwrap s.length
  let adjust := fun (i : Nat) => i - u.path_start + new_path_start
  pure { u with
         serialization := s ++ path_and_after
         path_start := new_path_start
         query_start := u.query_start.map adjust
         fragment_start := u.fragment_start.map adjust }

/-- `Url::set_port_internal` (lib.rs 580-610). -/
def set_port_internal (u : Url) (port : Option Nat) : Option Url :=
  match u.port, port with
  | Option.none, Option.none => some u
  | some _, Option.none =>
    (drain u.serialization u.host_end u.path_start).map (fun s =>
      let offset := u.path_start - u.host_end
      { u with
        serialization := s, path_start := u.host_end
        query_start := u.query_start.map (· - offset)
        fragment_start := u.fragment_start.map (· - offset) })
  | some old, some new_ =>
    if old = new_ then some u else setPortWrite u new_
  | Option.none, some new_ => setPortWrite u new_

/-- `Url::set_port` (lib.rs 569-578): refused without a host or on the
`file` scheme; a port equal to the scheme default collapses to `None`. -/
def set_port (u : Url) (port : Option Nat) : Option SetResult := do
  let hh ← has_host u
  if ¬hh then return .err u
  let sch ← scheme u
  if sch = "file".toList then return .err u
  let port := if port.isSome ∧ port = default_port sch then Option.none else port
  let u' ← set_port_internal u port
  return .ok u'

/-- `Url::set_host_internal` (lib.rs 648-680). The `has_host` test inside it
runs on the serialization already truncated at `host_start`. -/
def set_host_internal (u : Url) (host : HostView) (opt_new_port : Option (Option Nat)) : Option Url := do
  let old_suffix_pos := if opt_new_port.isSome then u.path_start else u.host_end
  let suffix ← sliceFrom u.serialization old_suffix_pos
  let s := truncate u.serialization u.host_start
  let rest ← sliceFrom s (u.scheme_end + 1)
  let hh := ['/', '/'].isPrefixOf rest
  let (s, username_end, host_start) :=
    if ¬hh then (s ++ ['/', '/'], u.username_end + 2, u.host_start + 2)
    else (s, u.username_end, u.host_start)
  let s := s ++ hostToString host
  let host_end ← u32unwrap s.length
  let (port, s) :=
    match opt_new_port with
    | some new_port =>
      (new_port, match new_port with
                 | some p => s ++ ':' :: Nat.toDigits 10 p
                 | Option.none => s)
    | Option.none => (u.port, s)
  let new_suffix_pos ← u32unwrap s.length
  let adjust := fun (i : Nat) => i - old_suffix_pos + new_suffix_pos
  pure { u with
    serialization := s ++ suffix
    username_end := username_end, host_start := host_start, host_end := host_end
    host := hostInto host, port := port
    path_start := adjust u.path_start
    query_start := u.query_start.map adjust
    fragment_start := u.fragment_start.map adjust }

/-- `Url::set_host` (lib.rs 619-645). `Host::parse` lives in the missing
`host` module and depends on the external IDNA collaborator (§1), so it is a
parameter; the theorems quantify over it. The `None` branch follows the
source exactly: after the two `assert!` checks it calls
`Vec::drain(path_start..scheme_end + 1)`. -/
def set_host (hostParse : List Char → Except Unit HostView) (u : Url) (host : Option (List Char)) : Option SetResult := do
  if (← non_relative u) then return .err u
  match host with
  | some h =>
    match hostParse h with
    | .error _ => return .err u
    | .ok hv =>
      let u' ← set_host_internal u hv Option.none
      return .ok u'
  | Option.none =>
    let hh ← has_host u
    if hh then do
      let c1 ← byteAt u.serialization u.scheme_end
      if c1 ≠ ':' then Option.none else do
      let c2 ← byteAt u.serialization u.path_start
      if c2 ≠ '/' then Option.none else do
      let new_path_start := u.scheme_end + 1
      let s ← drain u.serialization u.path_start new_path_start
      let offset := u.path_start - new_path_start
      return .ok { u with
        serialization := s
        path_start := new_path_start, username_end := new_path_start
        host_start := new_path_start, host_end := new_path_start
        host := HostInternal.none, port := Option.none
        query_start := u.query_start.map (· - offset)
        fragment_start := u.fragment_start.map (· - offset) }
    else return .ok u

/-- `Url::set_ipv4_host` (lib.rs 687-694): bypasses the host parser. -/
def set_ipv4_host (u : Url) (address : Nat) : Option SetResult := do
  if (← non_relative u) then return .err u
  let u' ← set_host_internal u (.ipv4 address) Option.none
  return .ok u'

/-- `Url::set_ipv6_host` (lib.rs 701-708): bypasses the host parser. -/
def set_ipv6_host (u : Url) (address : Nat) : Option SetResult := do
  if (← non_relative u) then return .err u
  let u' ← set_host_internal u (.ipv6 address) Option.none
  return .ok u'

/-- `Url::set_password` (lib.rs 713-758). In the removal branch the source
shifts `host_start`, `host_end`, `query_start` and `fragment_start` by the
removed length but leaves `path_start` alone, exactly as lib.rs 748-755
does. The u32 subtraction `host_start - 1` wraps in release builds when
`host_start = 0`, making the following `byte_at` read a panic. -/
def set_password (u : Url) (password : Option (List Char)) : Option SetResult := do
  let hh ← has_host u
  if ¬hh then return .err u
  match password with
  | some pw => do
    let host_and_after ← sliceFrom u.serialization u.host_start
    let s := truncate u.serialization u.username_end
    let s := s ++ ':' :: (utf8_percent_encode userinfoEncodeSet pw ++ ['@'])
    let new_host_start ← u32unwrap s.length
    let adjust := fun (i : Nat) => i - u.host_start + new_host_start
    return .ok { u with
      serialization := s ++ host_and_after
      host_start := new_host_start, host_end := adjust u.host_end
      path_start := adjust u.path_start
      query_start := u.query_start.map adjust
      fragment_start := u.fragment_start.map adjust }
  | Option.none => do
    let c ← byteAt u.serialization u.username_end
    if c = ':' then do
      if u.host_start = 0 then Option.none else do
      let _c2 ← byteAt u.serialization (u.host_start - 1)
      let username_start := u.scheme_end + 3
      let empty_username := username_start = u.username_end
      let start := u.username_end
      let end_ := if empty_username then u.host_start else u.host_start - 1
      let s ← drain u.serialization start end_
      let offset := end_ - start
      return .ok { u with
        serialization := s
        host_start := u.host_start - offset, host_end := u.host_end - offset
        query_start := u.query_start.map (· - offset)
        fragment_start := u.fragment_start.map (· - offset) }
    else return .ok u

/-- `Url::set_username` (lib.rs 763-794). An at sign is pushed only when the
text after the old username does not already start with an at sign or a
colon, exactly as lib.rs 789-791 does. -/
def set_username (u : Url) (username : List Char) : Option SetResult := do
  let hh ← has_host u
  if ¬hh then return .err u
  let username_start := u.scheme_end + 3
  let cur ← sliceRange u.serialization username_start u.username_end
  if cur = username then return .ok u
  let after_username ← sliceFrom u.serialization u.username_end
  let s := truncate u.serialization username_start
  let s := s ++ utf8_percent_encode userinfoEncodeSet username
  let new_username_end ← u32unwrap s.length
  let adjust := fun (i : Nat) => i - u.username_end + new_username_end
  let s := if !(after_username.head? = some '@' ∨ after_username.head? = some ':' : Bool)
           then s ++ ['@'] else s
  return .ok { u with
    serialization := s ++ after_username
    username_end := new_username_end
    host_start := adjust u.host_start, host_end := adjust u.host_end
    path_start := adjust u.path_start
    query_start := u.query_start.map adjust
    fragment_start := u.fragment_start.map adjust }

/-- `Url::set_scheme_internal` (lib.rs 806-831): parse the new scheme in a
fresh parser, refuse when parsing fails or input remains, then shift every
offset and splice the serialization from the old `scheme_end` on. These are
the only refusal conditions present in the source. -/
def set_scheme_internal (u : Url) (scheme : List Char) (allow_extra_input_after_colon : Bool) : Option SetResult := do
  match parse_scheme scheme with
  | .error _ => return .err u
  | .ok (ser, remaining) =>
    if ¬(remaining = [] ∨ allow_extra_input_after_colon = true) then return .err u
    let new_scheme_end ← u32unwrap ser.length
    let adjust := fun (i : Nat) => i - u.scheme_end + new_scheme_end
    let rest ← sliceFrom u.serialization u.scheme_end
    return .ok { u with
      serialization := ser ++ rest
      scheme_end := new_scheme_end
      username_end := adjust u.username_end, host_start := adjust u.host_start
      host_end := adjust u.host_end, path_start := adjust u.path_start
      query_start := u.query_start.map adjust
      fragment_start := u.fragment_start.map adjust }

/-- `Url::set_scheme` (lib.rs 802-804). -/
def set_scheme (u : Url) (scheme : List Char) : Option SetResult :=
  set_scheme_internal u scheme false

/-- `Url::pop_path_segment` (lib.rs 510-533): refused on non-relative URLs;
`path.rfind(slash).unwrap()` is a panic when the path has no slash. -/
def pop_path_segment (u : Url) : Option SetResult := do
  if (← non_relative u) then return .err u
  let p ← path u
  let last_slash ← rfind '/' p
  let path_len := p.length
  if last_slash > 0 then
    let ls := last_slash + u.path_start
    let pe := path_len + u.path_start
    let s ← drain u.serialization ls pe
    let offset := pe - ls
    return .ok { u with
      serialization := s
      query_start := u.query_start.map (· - offset)
      fragment_start := u.fragment_start.map (· - offset) }
  else return .ok u

/-- `Url::push_path_segment` (lib.rs 538-563): refused on non-relative URLs.
The segment is emitted by `Parser::parse_path` in `PathSegmentSetter`
context (missing `parser` module); the theorems quantify over that emitter,
passed as `pp` mapping the serialization after the pushed slash and the
segment to the new serialization. -/
def push_path_segment (pp : List Char → List Char → List Char) (u : Url) (segment : List Char) : Option SetResult := do
  if (← non_relative u) then return .err u
  let stash ← match u.query_start, u.fragment_start with
    | some i, _ => (sliceFrom u.serialization i).map (fun a => (a, truncate u.serialization i))
    | Option.none, some i => (sliceFrom u.serialization i).map (fun a => (a, truncate u.serialization i))
    | Option.none, Option.none => some (([] : List Char), u.serialization)
  let (after_path, s) := stash
  let s := pp (s ++ ['/']) segment
  let len ← u32unwrap s.length
  let offset := len - u.path_start
  return .ok { u with
    serialization := s ++ after_path
    query_start := u.query_start.map (· + offset)
    fragment_start := u.fragment_start.map (· + offset) }

end Url

/-- `file_url_segments_to_pathbuf` (unix, lib.rs 1124-1139): pushes a slash
and the percent-decoded bytes of each segment; always returns `Ok`. -/
def file_url_segments_to_pathbuf (segments : List (List Char)) : Except Unit (List Char) :=
  .ok (segments.foldl (fun bytes seg => bytes ++ '/' :: percent_decode seg) [])

namespace Url

/-- `Url::to_file_path` (lib.rs 898-906): a path is produced only when the
host matches `None | Some(Host::Domain("localhost"))` and `path_segments`
yields an iterator. -/
def to_file_path (u : Url) : Option (Except Unit (List Char)) := do
  let h ← host' u
  let cond := match h with
    | Option.none => true
    | some (.domain d) => d == "localhost".toList
    | some _ => false
  if cond then
    match (← path_segments u) with
    | some segments => pure (file_url_segments_to_pathbuf segments)
    | Option.none => pure (.error ())
  else pure (.error ())

end Url

/-! Concrete URL records, laid out as the parser produces them (spec §3 and
§4.3; for host-less URLs `username_end`, `host_start`, `host_end` and
`path_start` coincide, as in the record built at lib.rs 841-852). -/

/-- The parse of `a:`: a non-special scheme with an empty opaque path, so
every offset after the colon equals the serialization length. -/
def urlA : Url :=
  { serialization := "a:".toList
    scheme_end := 1
    username_end := 2
    host_start := 2
    host_end := 2
    host := .none
    port := Option.none
    path_start := 2
    query_start := Option.none
    fragment_start := Option.none }

/-- The parse of `http://h/`. -/
def urlHttpH : Url :=
  { serialization := "http://h/".toList
    scheme_end := 4
    username_end := 7
    host_start := 7
    host_end := 8
    host := .domain
    port := Option.none
    path_start := 8
    query_start := Option.none
    fragment_start := Option.none }

/-- The parse of `http://h:81/`. -/
def urlH81 : Url :=
  { serialization := "http://h:81/".toList
    scheme_end := 4
    username_end := 7
    host_start := 7
    host_end := 8
    host := .domain
    port := some 81
    path_start := 11
    query_start := Option.none
    fragment_start := Option.none }

/-- The parse of `data:x`: a non-relative URL. -/
def urlData : Url :=
  { serialization := "data:x".toList
    scheme_end := 4
    username_end := 5
    host_start := 5
    host_end := 5
    host := .none
    port := Option.none
    path_start := 5
    query_start := Option.none
    fragment_start := Option.none }

/-- The parse of `http://user:pw@h:81/p?q#f` (spec §8 scenario 6). -/
def urlUserinfo : Url :=
  { serialization := "http://user:pw@h:81/p?q#f".toList
    scheme_end := 4
    username_end := 11
    host_start := 15
    host_end := 16
    host := .domain
    port := some 81
    path_start := 19
    query_start := some 21
    fragment_start := some 23 }

/-- What `set_port(Some(80))` leaves behind on `urlUserinfo`: the `:81` span
is drained from the serialization, but the `port` field is never assigned by
`set_port_internal`. -/
def urlUserinfoB : Url :=
  { serialization := "http://user:pw@h/p?q#f".toList
    scheme_end := 4
    username_end := 11
    host_start := 15
    host_end := 16
    host := .domain
    port := some 81
    path_start := 16
    query_start := some 18
    fragment_start := some 20 }

/-- What `set_password(None)` leaves behind on `urlUserinfoB`: `:pw` is
drained, but `path_start` is not shifted (lib.rs 748-755 adjusts
`host_start`, `host_end`, `query_start` and `fragment_start` only), so it is
left at 16 although `query_start` is now 15. -/
def urlUserinfoC : Url :=
  { serialization := "http://user@h/p?q#f".toList
    scheme_end := 4
    username_end := 11
    host_start := 12
    host_end := 13
    host := .domain
    port := some 81
    path_start := 16
    query_start := some 15
    fragment_start := some 17 }

/-- What `set_username("")` leaves behind on `urlUserinfoC`: the username
bytes are removed but the at sign stays, because lib.rs 789-791 only ever
adds an at sign and never removes one. -/
def urlUserinfoD : Url :=
  { serialization := "http://@h/p?q#f".toList
    scheme_end := 4
    username_end := 7
    host_start := 8
    host_end := 9
    host := .domain
    port := some 81
    path_start := 12
    query_start := some 11
    fragment_start := some 13 }

/-- What `set_port(Some(80))` leaves behind on `urlH81`. -/
def urlH81Dropped : Url :=
  { serialization := "http://h/".toList
    scheme_end := 4
    username_end := 7
    host_start := 7
    host_end := 8
    host := .domain
    port := some 81
    path_start := 8
    query_start := Option.none
    fragment_start := Option.none }

/-- What `set_scheme("http")` leaves behind on `urlData`. -/
def urlDataHttp : Url :=
  { serialization := "http:x".toList
    scheme_end := 4
    username_end := 5
    host_start := 5
    host_end := 5
    host := .none
    port := Option.none
    path_start := 5
    query_start := Option.none
    fragment_start := Option.none }

/-- C1: claimed, `set_host(None)` on a URL that has a host returns `Ok` and
strips userinfo, port and the authority marker. On the parse of `http://h/`
the source instead calls `Vec::drain(path_start..scheme_end + 1)`, that is
`drain(8..5)` (lib.rs 630-634), a range whose start exceeds its end, so the
call panics whatever the host parser is. -/
theorem set_host_none_drain_panics :
    ∀ hostParse, Url.set_host hostParse urlHttpH Option.none = Option.none := by
  intro hostParse
  rfl

/-- C2: claimed, no byte access of any public operation is out of bounds.
On the parse of `a:` — an empty opaque path, so `path_start` equals the
serialization length — `non_relative()` evaluates
`serialization.as_bytes()[path_start]` (lib.rs 241-243, 922-925), an
out-of-bounds index, hence a panic. -/
theorem non_relative_oob_panics :
    Url.non_relative urlA = Option.none := by decide

/-- C3: claimed, the chain `set_port(Some(80))`, `set_password(None)`,
`set_username("")` on the parse of `http://user:pw@h:81/p?q#f` ends at
`http://h/p?q#f`. The first two serializations match the spec, but
`set_password(None)` leaves `path_start` at 16 while `query_start` is 15
(no `path_start` adjustment at lib.rs 748-755), and `set_username("")`
leaves the at sign in place, ending at `http://@h/p?q#f`. -/
theorem userinfo_setter_chain_eval :
    Url.set_port urlUserinfo (some 80) = some (.ok urlUserinfoB) ∧
    Url.set_password urlUserinfoB Option.none = some (.ok urlUserinfoC) ∧
    Url.set_username urlUserinfoC [] = some (.ok urlUserinfoD) ∧
    urlUserinfoB.serialization = "http://user:pw@h/p?q#f".toList ∧
    urlUserinfoC.serialization = "http://user@h/p?q#f".toList ∧
    urlUserinfoC.path_start = 16 ∧ urlUserinfoC.query_start = some 15 ∧
    urlUserinfoD.serialization = "http://@h/p?q#f".toList := by decide

/-- C4: claimed, `set_scheme` refuses a special scheme on a non-relative
URL. The parse of `data:x` is non-relative, yet `set_scheme("http")`
succeeds and produces `http:x`: `set_scheme_internal` (lib.rs 806-831) only
checks the scheme grammar and the remaining input, never the
special/opaque switch its own doc comment (lib.rs 798-801) promises to
refuse. -/
theorem set_scheme_special_on_non_relative_ok :
    Url.non_relative urlData = some true ∧
    Url.set_scheme urlData ("http".toList) = some (.ok urlDataHttp) ∧
    urlDataHttp.serialization = "http:x".toList := by decide

/-- C7: claimed, `set_port(Some(p))` with `p` the scheme default stores
`None` in the port. On the parse of `http://h:81/`, `set_port(Some(80))`
does drop `:81` from the serialization, but `set_port_internal`
(lib.rs 580-610) never assigns the `port` field, which stays `Some(81)`. -/
theorem set_port_default_keeps_port_field :
    Url.set_port urlH81 (some 80) = some (.ok urlH81Dropped) ∧
    urlH81Dropped.serialization = "http://h/".toList ∧
    urlH81Dropped.port = some 81 := by decide

/-- C5: every refused setter call — `pop_path_segment` or
`push_path_segment` on a non-relative URL, `set_port` on a `file:` or
hostless URL, `set_host`, `set_ipv4_host` or `set_ipv6_host` on a
non-relative URL, `set_username` or `set_password` on a hostless URL,
`set_scheme` on an invalid scheme — returns `Err` with the record
(serialization and every offset field) byte-for-byte unchanged. -/
theorem refused_setters_leave_url_unchanged (u : Url) :
    (Url.non_relative u = some true →
      Url.pop_path_segment u = some (.err u) ∧
      (∀ pp seg, Url.push_path_segment pp u seg = some (.err u)) ∧
      (∀ hp ho, Url.set_host hp u ho = some (.err u)) ∧
      (∀ a, Url.set_ipv4_host u a = some (.err u)) ∧
      (∀ a, Url.set_ipv6_host u a = some (.err u))) ∧
    (Url.has_host u = some false →
      (∀ p, Url.set_port u p = some (.err u)) ∧
      (∀ s, Url.set_username u s = some (.err u)) ∧
      (∀ pw, Url.set_password u pw = some (.err u))) ∧
    (Url.has_host u = some true → Url.scheme u = some ("file".toList) →
      ∀ p, Url.set_port u p = some (.err u)) ∧
    (∀ s, parse_scheme s = .error () → Url.set_scheme u s = some (.err u)) ∧
    (∀ s ser rem, parse_scheme s = .ok (ser, rem) → rem ≠ [] →
      Url.set_scheme u s = some (.err u)) := by
  refine ⟨fun h => ⟨?_, ?_, ?_, ?_, ?_⟩, fun h => ⟨?_, ?_, ?_⟩,
    fun h1 h2 p => ?_, fun s hs => ?_, fun s ser rem hs hrem => ?_⟩
  · simp [Url.pop_path_segment, h]
  · intro pp seg; simp [Url.push_path_segment, h]
  · intro hp ho; simp [Url.set_host, h]
  · intro a; simp [Url.set_ipv4_host, h]
  · intro a; simp [Url.set_ipv6_host, h]
  · intro p; simp [Url.set_port, h]
  · intro s; simp [Url.set_username, h]
  · intro pw; simp [Url.set_password, h]
  · simp [Url.set_port, h1, h2]
  · simp [Url.set_scheme, Url.set_scheme_internal, hs]
  · simp [Url.set_scheme, Url.set_scheme_internal, hs, hrem]

/-- Witness for C5 at the non-relative, hostless record `data:x` and an
invalid scheme string. -/
theorem refused_setters_witness :
    Url.non_relative urlData = some true ∧
    Url.has_host urlData = some false ∧
    Url.pop_path_segment urlData = some (.err urlData) ∧
    Url.set_port urlData (some 1) = some (.err urlData) ∧
    Url.set_scheme urlData ("1x".toList) = some (.err urlData) :=
  ⟨by decide, by decide,
   ((refused_setters_leave_url_unchanged urlData).1 (by decide)).1,
   ((refused_setters_leave_url_unchanged urlData).2.1 (by decide)).1 (some 1),
   (refused_setters_leave_url_unchanged urlData).2.2.2.1 ("1x".toList) (by decide)⟩

/-- C9: when the new username is byte-equal to the current one,
`set_username` hits the early equality return (lib.rs 768-770) and is the
identity: `Ok` with serialization and every offset unchanged. -/
theorem set_username_identity (u : Url) (s : List Char)
    (hh : Url.has_host u = some true) (hs : Url.username u = some s) :
    Url.set_username u s = some (.ok u) := by
  have hslice : sliceRange u.serialization (u.scheme_end + 3) u.username_end = some s := by
    simpa [Url.username, hh] using hs
  simp [Url.set_username, hh, hslice]

/-- Witness for C9 at the parse of `http://h/`, whose username is empty. -/
theorem set_username_identity_witness :
    Url.set_username urlHttpH [] = some (.ok urlHttpH) :=
  set_username_identity urlHttpH [] (by decide) (by decide)

/-- C8: `set_fragment(Some(""))` yields a record whose `fragment()` is
`Some("")` and whose serialization ends with the hash byte, while
`set_fragment(None)` yields one whose `fragment()` is `None` and that has no
`fragment_start`: the two outcomes are observably distinct. The length bound
keeps the `to_u32(...).unwrap()` inside `set_fragment` from panicking. -/
theorem set_fragment_empty_vs_none (u : Url)
    (h : u.serialization.length ≤ 4294967295) :
    ∃ u₁ u₂,
      Url.set_fragment u (some []) = some u₁ ∧
      Url.fragment u₁ = some (some []) ∧
      u₁.serialization.getLast? = some '#' ∧
      u₁.fragment_start.isSome = true ∧
      Url.set_fragment u Option.none = some u₂ ∧
      Url.fragment u₂ = some Option.none ∧
      u₂.fragment_start = Option.none := by
  rcases hf : u.fragment_start with _ | start
  · refine ⟨{ u with
        serialization := u.serialization ++ ['#']
        fragment_start := some u.serialization.length },
      { u with
        serialization := u.serialization
        fragment_start := Option.none }, ?_, ?_, ?_, ?_, ?_, ?_, ?_⟩
    · simp [Url.set_fragment, hf, u32unwrap, to_u32, h, parse_fragment,
        utf8_percent_encode]
    · simp [Url.fragment, sliceFrom, List.drop_eq_nil_of_le]
    · simp [List.getLast?_concat]
    · rfl
    · simp [Url.set_fragment, hf]
    · simp [Url.fragment]
    · rfl
  · have hb : (truncate u.serialization start).length ≤ 4294967295 :=
      le_trans (by simp [truncate]) h
    refine ⟨{ u with
        serialization := truncate u.serialization start ++ ['#']
        fragment_start := some (truncate u.serialization start).length },
      { u with
        serialization := truncate u.serialization start
        fragment_start := Option.none }, ?_, ?_, ?_, ?_, ?_, ?_, ?_⟩
    · simp [Url.set_fragment, hf, u32unwrap, to_u32, hb, parse_fragment,
        utf8_percent_encode]
    · simp [Url.fragment, sliceFrom, List.drop_eq_nil_of_le]
    · simp [List.getLast?_concat]
    · rfl
    · simp [Url.set_fragment, hf]
    · simp [Url.fragment]
    · rfl

/-- Witness for C8 at the parse of `http://h/`. -/
theorem set_fragment_empty_vs_none_witness :
    urlHttpH.serialization.length ≤ 4294967295 ∧
    (∃ u₁ u₂,
      Url.set_fragment urlHttpH (some []) = some u₁ ∧
      Url.fragment u₁ = some (some []) ∧
      u₁.serialization.getLast? = some '#' ∧
      u₁.fragment_start.isSome = true ∧
      Url.set_fragment urlHttpH Option.none = some u₂ ∧
      Url.fragment u₂ = some Option.none ∧
      u₂.fragment_start = Option.none) :=
  ⟨by decide, set_fragment_empty_vs_none urlHttpH (by decide)⟩

/-- C10: `to_file_path` returns `Err` for every present host other than the
domain `localhost` (any other domain, any IPv4 or IPv6 host), returns `Err`
when `path_segments()` is `None` (non-relative URL), and produces a path
only when the host is absent or `Domain("localhost")` and the path is
hierarchical. -/
theorem to_file_path_requires_localhost_and_segments (u : Url) :
    (∀ hv, Url.host' u = some (some hv) → hv ≠ .domain ("localhost".toList) →
      Url.to_file_path u = some (.error ())) ∧
    (∀ ho, Url.host' u = some ho → Url.path_segments u = some Option.none →
      Url.to_file_path u = some (.error ())) ∧
    (∀ p, Url.to_file_path u = some (.ok p) →
      (Url.host' u = some Option.none ∨
       Url.host' u = some (some (.domain ("localhost".toList)))) ∧
      ∃ segs, Url.path_segments u = some (some segs)) := by
  refine ⟨fun hv hh hne => ?_, fun ho hh hps => ?_, fun p hp => ?_⟩
  · cases hv with
    | domain d =>
      have hd : ¬ d = ['l', 'o', 'c', 'a', 'l', 'h', 'o', 's', 't'] :=
        fun hEq => hne (by rw [show d = "localhost".toList from hEq])
      simp [Url.to_file_path, hh, hd]
    | ipv4 a => simp [Url.to_file_path, hh]
    | ipv6 a => simp [Url.to_file_path, hh]
  · cases ho with
    | none => simp [Url.to_file_path, hh, hps]
    | some hv =>
      cases hv with
      | domain d =>
        by_cases hd : d = "localhost".toList
        · subst hd; simp [Url.to_file_path, hh, hps]
        · have hd2 : ¬ d = ['l', 'o', 'c', 'a', 'l', 'h', 'o', 's', 't'] := hd
          simp [Url.to_file_path, hh, hd2]
      | ipv4 a => simp [Url.to_file_path, hh]
      | ipv6 a => simp [Url.to_file_path, hh]
  · rcases hh : Url.host' u with _ | ho
    · simp [Url.to_file_path, hh] at hp
    · cases ho with
      | none =>
        rcases hps : Url.path_segments u with _ | x
        · simp [Url.to_file_path, hh, hps] at hp
        · cases x with
          | none => simp [Url.to_file_path, hh, hps] at hp
          | some segs => exact ⟨Or.inl rfl, segs, rfl⟩
      | some hv =>
        cases hv with
        | domain d =>
          by_cases hd : d = "localhost".toList
          · subst hd
            rcases hps : Url.path_segments u with _ | x
            · simp [Url.to_file_path, hh, hps] at hp
            · cases x with
              | none => simp [Url.to_file_path, hh, hps] at hp
              | some segs => exact ⟨Or.inr rfl, segs, rfl⟩
          · have hd2 : ¬ d = ['l', 'o', 'c', 'a', 'l', 'h', 'o', 's', 't'] := hd
            simp [Url.to_file_path, hh, hd2] at hp
        | ipv4 a => simp [Url.to_file_path, hh] at hp
        | ipv6 a => simp [Url.to_file_path, hh] at hp

/-- Witness for C10 at the parse of `http://h/`: the host is a domain other
than `localhost`, so `to_file_path` refuses. -/
theorem to_file_path_witness :
    Url.host' urlHttpH = some (some (.domain "h".toList)) ∧
    Url.to_file_path urlHttpH = some (.error ()) :=
  ⟨by decide, (to_file_path_requires_localhost_and_segments urlHttpH).1
    (.domain "h".toList) (by decide) (by decide)⟩

/-- An in-bounds `byteAt` read witnesses the index bound. -/
theorem byteAt_some_lt {s : List Char} {i : Nat} {c : Char}
    (h : byteAt s i = some c) : i < s.length := by
  simp only [byteAt] at h
  rw [List.get?_eq_some] at h
  obtain ⟨hlt, _⟩ := h
  exact hlt

/-- A successful `sliceFrom` at an in-range index is nonempty and starts at
the byte there. -/
theorem sliceFrom_head (s : List Char) (i : Nat) (hi : i < s.length) :
    ∃ p, sliceFrom s i = some p ∧ p.head? = byteAt s i ∧ p ≠ [] := by
  refine ⟨s.drop i, by simp [sliceFrom, Nat.le_of_lt hi], ?_, ?_⟩
  · rw [List.head?_eq_getElem?, List.getElem?_drop]
    simp [byteAt, List.get?_eq_getElem?]
  · intro hnil
    have hlen := congrArg List.length hnil
    simp at hlen
    omega

/-- A successful `sliceRange` over a nonempty range is nonempty and starts
at the byte at its left end. -/
theorem sliceRange_head (s : List Char) (i j : Nat) (hij : i < j)
    (hj : j ≤ s.length) :
    ∃ p, sliceRange s i j = some p ∧ p.head? = byteAt s i ∧ p ≠ [] := by
  refine ⟨(s.take j).drop i, by simp [sliceRange, Nat.le_of_lt hij, hj], ?_, ?_⟩
  · rw [List.head?_eq_getElem?, List.getElem?_drop,
      List.getElem?_take_of_lt (show i + 0 < j by omega)]
    simp [byteAt, List.get?_eq_getElem?]
  · intro hnil
    have hlen := congrArg List.length hnil
    simp at hlen
    omega

/-- Splitting always yields at least one piece. -/
theorem splitOnChar_ne_nil (sep : Char) (l : List Char) :
    splitOnChar sep l ≠ [] := by
  induction l with
  | nil => simp [splitOnChar]
  | cons c rest ih =>
    simp only [splitOnChar]
    split
    · simp
    · split
      · simp
      · simp

/-- The §3 offset invariants used as hypotheses: monotonically non-decreasing
offsets within the serialization (inv 1, with the scheme colon strictly
before `username_end`), the colon at `scheme_end` (inv 2), and the marker
bytes at `query_start` and `fragment_start` (inv 5). -/
def offsetInvariants (u : Url) : Bool :=
  decide (u.scheme_end < u.username_end) &&
  decide (u.username_end ≤ u.host_start) &&
  decide (u.host_start ≤ u.host_end) &&
  decide (u.host_end ≤ u.path_start) &&
  (byteAt u.serialization u.scheme_end == some ':') &&
  decide (u.path_start ≤ u.serialization.length) &&
  (match u.query_start with
   | some q => decide (u.path_start ≤ q) && (byteAt u.serialization q == some '?')
   | Option.none => true) &&
  (match u.fragment_start with
   | some f => (byteAt u.serialization f == some '#') &&
       (match u.query_start with
        | some q => decide (q ≤ f)
        | Option.none => decide (u.path_start ≤ f))
   | Option.none => true)

/-- Core of C6, stated for a computed path `p` that is either empty with a
non-slash byte at `path_start`, or headed by that byte. -/
theorem path_segments_core (u : Url) (p : List Char) (c₀ : Char)
    (hpath : Url.path u = some p)
    (hc₀ : byteAt u.serialization u.path_start = some c₀)
    (hshape : (p = [] ∧ c₀ ≠ '/') ∨ p.head? = some c₀) :
    (Url.path_segments u = some Option.none ↔ Url.non_relative u = some true) ∧
    (∀ c, byteAt u.serialization u.path_start = some c →
      (Url.non_relative u = some true ↔ c ≠ '/')) ∧
    (∀ segs, Url.path_segments u = some (some segs) → segs ≠ []) := by
  have hnr : Url.non_relative u = some (c₀ != '/') := by
    simp [Url.non_relative, hc₀]
  have hsecond : ∀ c, byteAt u.serialization u.path_start = some c →
      (Url.non_relative u = some true ↔ c ≠ '/') := by
    intro c hc
    rw [hc₀] at hc
    injection hc with hc
    subst hc
    rw [hnr]
    simp
  rcases hshape with ⟨hpe, hcne⟩ | hhead
  · subst hpe
    refine ⟨?_, hsecond, ?_⟩
    · simp [Url.path_segments, hpath, hnr, hcne]
    · intro segs hsegs
      simp [Url.path_segments, hpath] at hsegs
  · obtain ⟨t, hpt⟩ : ∃ t, p = c₀ :: t := by
      cases p with
      | nil => simp at hhead
      | cons a t =>
        simp only [List.head?_cons, Option.some_inj] at hhead
        exact ⟨t, by rw [hhead]⟩
    subst hpt
    by_cases hc : c₀ = '/'
    · subst hc
      refine ⟨?_, hsecond, ?_⟩
      · simp [Url.path_segments, hpath, hnr]
      · intro segs hsegs
        simp [Url.path_segments, hpath] at hsegs
        rw [← hsegs]
        exact splitOnChar_ne_nil '/' t
    · refine ⟨?_, hsecond, ?_⟩
      · simp [Url.path_segments, hpath, hnr, hc]
      · intro segs hsegs
        simp [Url.path_segments, hpath, hc] at hsegs

/-- C6: `path_segments()` is `None` exactly when the URL is non-relative,
being non-relative is exactly the byte at `path_start` differing from the
slash, and a present iterator yields at least one string. The bound
`path_start < length` is the precondition that the byte `non_relative()`
reads exists (its absence is the C2 panic). -/
theorem path_segments_none_iff_non_relative (u : Url)
    (h : offsetInvariants u = true)
    (hp : u.path_start < u.serialization.length) :
    (Url.path_segments u = some Option.none ↔ Url.non_relative u = some true) ∧
    (∀ c, byteAt u.serialization u.path_start = some c →
      (Url.non_relative u = some true ↔ c ≠ '/')) ∧
    (∀ segs, Url.path_segments u = some (some segs) → segs ≠ []) := by
  obtain ⟨c₀, hc₀⟩ : ∃ c, byteAt u.serialization u.path_start = some c := by
    simp only [byteAt]
    exact ⟨_, List.get?_eq_get hp⟩
  rcases hq : u.query_start with _ | q
  · rcases hf : u.fragment_start with _ | f
    · obtain ⟨p, hpath, hhead, _⟩ := sliceFrom_head u.serialization u.path_start hp
      have hpath' : Url.path u = some p := by
        rw [Url.path, hq, hf, hpath]
      exact path_segments_core u p c₀ hpath' hc₀ (Or.inr (hhead.trans hc₀))
    · simp only [offsetInvariants, hq, hf, Bool.and_eq_true, decide_eq_true_eq,
        beq_iff_eq] at h
      have hfb : byteAt u.serialization f = some '#' := h.2.1
      have hfle : u.path_start ≤ f := h.2.2
      have hflen : f < u.serialization.length := byteAt_some_lt hfb
      rcases Nat.lt_or_ge u.path_start f with hlt | hge
      · obtain ⟨p, hpath, hhead, _⟩ :=
          sliceRange_head u.serialization u.path_start f hlt (Nat.le_of_lt hflen)
        have hpath' : Url.path u = some p := by
          rw [Url.path, hq, hf]
          exact hpath
        exact path_segments_core u p c₀ hpath' hc₀ (Or.inr (hhead.trans hc₀))
      · have hpf : u.path_start = f := Nat.le_antisymm hfle hge
        have hpath' : Url.path u = some [] := by
          rw [Url.path, hq, hf, hpf]
          show sliceRange u.serialization f f = some []
          rw [sliceRange, if_pos ⟨Nat.le_refl f, Nat.le_of_lt hflen⟩,
            List.drop_eq_nil_of_le (List.length_take_le _ _)]
        have hc₀f : c₀ = '#' := by
          rw [hpf, hfb] at hc₀
          injection hc₀ with hc₀
          rw [hc₀]
        exact path_segments_core u [] c₀ hpath' hc₀
          (Or.inl ⟨rfl, by rw [hc₀f]; decide⟩)
  · simp only [offsetInvariants, hq, Bool.and_eq_true, decide_eq_true_eq,
      beq_iff_eq] at h
    have hqle : u.path_start ≤ q := h.1.2.1
    have hqb : byteAt u.serialization q = some '?' := h.1.2.2
    have hqlen : q < u.serialization.length := byteAt_some_lt hqb
    have hpath0 : Url.path u = sliceRange u.serialization u.path_start q := by
      rcases hf2 : u.fragment_start with _ | f2 <;> rw [Url.path, hq, hf2]
    rcases Nat.lt_or_ge u.path_start q with hlt | hge
    · obtain ⟨p, hpath, hhead, _⟩ :=
        sliceRange_head u.serialization u.path_start q hlt (Nat.le_of_lt hqlen)
      have hpath' : Url.path u = some p := by
        rw [hpath0, hpath]
      exact path_segments_core u p c₀ hpath' hc₀ (Or.inr (hhead.trans hc₀))
    · have hpq : u.path_start = q := Nat.le_antisymm hqle hge
      have hpath' : Url.path u = some [] := by
        rw [hpath0, hpq, sliceRange, if_pos ⟨Nat.le_refl q, Nat.le_of_lt hqlen⟩,
          List.drop_eq_nil_of_le (List.length_take_le _ _)]
      have hc₀q : c₀ = '?' := by
        rw [hpq, hqb] at hc₀
        injection hc₀ with hc₀
        rw [hc₀]
      exact path_segments_core u [] c₀ hpath' hc₀
        (Or.inl ⟨rfl, by rw [hc₀q]; decide⟩)

/-- Witness for C6 at the parse of `http://h/`. -/
theorem path_segments_witness :
    offsetInvariants urlHttpH = true ∧
    urlHttpH.path_start < urlHttpH.serialization.length ∧
    (Url.path_segments urlHttpH = some Option.none ↔
      Url.non_relative urlHttpH = some true) :=
  ⟨by decide, by decide,
   (path_segments_none_iff_non_relative urlHttpH (by decide) (by decide)).1⟩

end RustUrl
